import Mathlib

set_option linter.unusedVariables false

/-!
Shallow embedding of the campaign-generator engine (src/main.py).

Randomness is modelled by explicit parameters: each `random.choice` call
takes a natural-number index reduced modulo the list length (`none` models
the IndexError raised on an empty list), each `random.uniform` draw is
passed in as a rational parameter (theorems constrain it to the interval
the source draws from), and `random.choices` with weights consumes an
index reduced modulo the total weight.  Python integers are `Int` with
`Int.fdiv` for floor division, and the exact values of the float
computations are carried as rationals.  The comparison
`x >= 0.25 * total_pay` of the source (exact in floating point for the
magnitudes involved, since 0.25 is a power of two) is rendered by the
equivalent integer comparison `total_pay <= 4 * x`.
-/

/-- Python round-half-to-even of a rational number, i.e. `round(x)` applied
to the exact value of `x`. -/
def roundHalfEven (q : ℚ) : ℤ :=
  if q - ⌊q⌋ < 1/2 then ⌊q⌋
  else if 1/2 < q - ⌊q⌋ then ⌊q⌋ + 1
  else if ⌊q⌋ % 2 = 0 then ⌊q⌋ else ⌊q⌋ + 1

/-- Python `round(n / 5)` for an integer `n`: round to nearest; a tie is
impossible because 5 is odd, so this equals the floor of `(2*n+5)/10`. -/
def pyRound5 (n : ℤ) : ℤ := (2 * n + 5).fdiv 10

/-- Python `range(0, stop, 5)` as a list of integers. -/
def pyRange5 (stop : ℤ) : List ℤ :=
  (List.range ((stop.toNat + 4) / 5)).map (fun i => 5 * (i : ℤ))

/-- Python `str.strip()`: drop whitespace from both ends. -/
def pyStrip (s : String) : String :=
  ⟨((s.data.dropWhile Char.isWhitespace).reverse.dropWhile Char.isWhitespace).reverse⟩

/-- `random.choice` on a list, the randomness supplied as an index reduced
modulo the length; `none` models the IndexError on an empty list. -/
def randomChoice {α : Type*} (l : List α) (r : ℕ) : Option α :=
  l[r % l.length]?

/-- Lookup in a string-keyed table, modelling Python `dict.get`. -/
def tblGet {α : Type*} (k : String) : List (String × α) → Option α
  | [] => none
  | (k', v) :: rest => if k' = k then some v else tblGet k rest

/-- The list `possible_splits` enumerated by `calculate_pay_split`
(src/main.py lines 80-94): monthly retainers `m` stepping by 5 over
`range(0, total_pay // duration + 5, 5)`, keeping pairs `(m, bonus)` with
`bonus = total_pay - m*duration`, both parts at least 25% of the total
(`total_pay <= 4*x` is exactly `x >= 0.25*total_pay`) and the bonus a
multiple of 5. -/
def possibleSplits (total_pay duration : ℤ) : List (ℤ × ℤ) :=
  (pyRange5 (total_pay.fdiv duration + 5)).filterMap (fun m =>
    let total_retainer := m * duration
    let bonus := total_pay - total_retainer
    if total_pay ≤ 4 * total_retainer ∧ total_pay ≤ 4 * bonus ∧ bonus % 5 = 0
    then some (m, bonus) else none)

/-- `calculate_pay_split` (src/main.py lines 75-103): pick uniformly among
the enumerated candidate splits; fall back to a 50/50 split rounded to the
nearest 5 when no candidate exists. -/
def calculate_pay_split (total_pay duration : ℤ) (r : ℕ) : ℤ × ℤ :=
  match randomChoice (possibleSplits total_pay duration) r with
  | some p => p
  | none =>
      let m_raw := (total_pay.fdiv 2).fdiv duration
      let m_fallback := 5 * pyRound5 m_raw
      (m_fallback, total_pay - m_fallback * duration)

/-- One row of the intensity table (src/main.py lines 63-71); the parser
always fills all five fields. -/
structure IntensityStats where
  description : String
  probability : ℚ
  payout : ℚ
  scale_min : ℚ
  scale_max : ℚ
deriving DecidableEq

/-- The effective `scale_min` used by `calculate_scale_pv`
(`stats.get('scale_min', 1.0)` after `intensity_data.get(name.strip(), {})`). -/
def scaleMinOf (intensity_name : String) (intensity_data : List (String × IntensityStats)) : ℚ :=
  ((tblGet (pyStrip intensity_name) intensity_data).map IntensityStats.scale_min).getD 1

/-- The effective `scale_max` used by `calculate_scale_pv`. -/
def scaleMaxOf (intensity_name : String) (intensity_data : List (String × IntensityStats)) : ℚ :=
  ((tblGet (pyStrip intensity_name) intensity_data).map IntensityStats.scale_max).getD 1

/-- `calculate_scale_pv` (src/main.py lines 106-120):
`int(5 * round(120 * multiplier / 5))` where `multiplier` is
`random.uniform(scale_min, scale_max)`; the draw is the parameter `mult`,
constrained to `[scaleMinOf, scaleMaxOf]` in the theorems.  The outer
`int(...)` is the identity since `5 * round(...)` is already an integer. -/
def calculate_scale_pv (intensity_name : String)
    (intensity_data : List (String × IntensityStats)) (mult : ℚ) : ℤ :=
  let raw_pv : ℚ := 120 * mult
  5 * roundHalfEven (raw_pv / 5)

/-- One row of the fixed `intensity_rules` table of
`get_monthly_mission_count` (src/main.py lines 133-139). -/
structure CountRule where
  counts : List ℕ
  weights : List ℕ
deriving DecidableEq

/-- The fixed `intensity_rules` table (src/main.py lines 133-139). -/
def intensity_rules : List (String × CountRule) :=
  [("Very low", ⟨[0, 1], [75, 25]⟩),
   ("Low", ⟨[0, 1], [50, 50]⟩),
   ("Medium", ⟨[0, 1, 2], [20, 60, 20]⟩),
   ("High", ⟨[1, 2, 3], [20, 60, 20]⟩),
   ("Very high", ⟨[2, 3, 4], [20, 60, 20]⟩)]

/-- Weighted selection as performed by `random.choices(counts, weights)`:
walk the weight list with a draw `r` taken below the total weight. -/
def weightedPick : List ℕ → List ℕ → ℕ → ℕ
  | x :: xs, w :: ws, r => if r < w then x else weightedPick xs ws (r - w)
  | _, _, _ => 0

/-- The rule row used for an intensity name:
`intensity_rules.get(intensity_name.strip(), intensity_rules["Medium"])`. -/
def ruleFor (intensity_name : String) : CountRule :=
  (tblGet (pyStrip intensity_name) intensity_rules).getD ⟨[0, 1, 2], [20, 60, 20]⟩

/-- `get_monthly_mission_count` (src/main.py lines 123-144). -/
def get_monthly_mission_count (intensity_name : String) (r : ℕ) : ℕ :=
  let rule := ruleFor intensity_name
  weightedPick rule.counts rule.weights (r % rule.weights.sum)

/-- One column of the campaign archetype table (src/main.py lines 20-43):
each key row of the spreadsheet may be present with a (possibly empty)
list of values, or absent entirely. -/
structure CampaignDetails where
  missions : Option (List String)
  intensity : Option (List String)
  duration : Option (List ℤ)
  opfor : Option (List ℚ)
deriving DecidableEq

/-- `campaign_data.get(campaign_type, {}).get('missions', ["Standard Combat"])`
(src/main.py line 154). -/
def availableMissions (campaign_type : String)
    (campaign_data : List (String × CampaignDetails)) : List String :=
  ((tblGet campaign_type campaign_data).bind CampaignDetails.missions).getD
    ["Standard Combat"]

/-- One month's schedule entry (src/main.py lines 175-179). -/
structure ScheduleEntry where
  month : ℤ
  count : ℕ
  types : List String
deriving DecidableEq

/-- One mission pick (src/main.py lines 163-171): build
`valid_choices = [m for m in available_missions if m != last_mission]`,
fall back to the whole pool when that is empty, then `random.choice`. -/
def pickOne (avail : List String) (last : Option String) (r : ℕ) : Option String :=
  let valid := avail.filter (fun m => decide (some m ≠ last))
  let valid2 := if valid.isEmpty then avail else valid
  randomChoice valid2 r

/-- The inner loop of `generate_mission_schedule` (src/main.py lines
162-173): draw `count` missions, each excluding the most recently picked
name unless that would empty the candidate list.  Returns the picks, the
final `last_mission` tracker, and the next pick-tape index. -/
def pickBatch (avail : List String) :
    Option String → ℕ → (ℕ → ℕ) → ℕ → Option (List String × Option String × ℕ)
  | last, 0, _, i => some ([], last, i)
  | last, c + 1, tape, i =>
      match pickOne avail last (tape i) with
      | none => none
      | some current_mission =>
          match pickBatch avail (some current_mission) c tape (i + 1) with
          | none => none
          | some (rest, last2, i2) => some (current_mission :: rest, last2, i2)

/-- The month loop of `generate_mission_schedule` (src/main.py lines
158-179): `n` months remaining, `k` months already emitted. -/
def genMonths (avail : List String) (intensity_name : String) (ctape ptape : ℕ → ℕ) :
    ℕ → ℕ → Option String → ℕ → Option (List ScheduleEntry × Option String × ℕ)
  | 0, _, last, i => some ([], last, i)
  | n + 1, k, last, i =>
      let count := get_monthly_mission_count intensity_name (ctape k)
      match pickBatch avail last count ptape i with
      | none => none
      | some (month_missions, last2, i2) =>
          match genMonths avail intensity_name ctape ptape n (k + 1) last2 i2 with
          | none => none
          | some (rest, last3, i3) =>
              some (⟨(k : ℤ) + 1, count, month_missions⟩ :: rest, last3, i3)

/-- `generate_mission_schedule` (src/main.py lines 147-180). -/
def generate_mission_schedule (duration : ℤ) (intensity_name campaign_type : String)
    (campaign_data : List (String × CampaignDetails)) (ctape ptape : ℕ → ℕ) :
    Option (List ScheduleEntry) :=
  (genMonths (availableMissions campaign_type campaign_data) intensity_name
    ctape ptape duration.toNat 0 none 0).map (fun x => x.1)

/-- The `last_mission` tracker after processing the picks `xs` starting
from tracker state `last`. -/
def lastTrack (last : Option String) (xs : List String) : Option String :=
  xs.foldl (fun _ m => some m) last

/-- The no-immediate-repeat property of a pick sequence `xs` relative to
the available-mission pool and an incoming tracker state: each pick
differs from the previous one unless every available mission equals the
previous one (the waiver case). -/
def noRepeatFrom (avail : List String) : Option String → List String → Prop
  | _, [] => True
  | last, m :: rest =>
      (∀ p, last = some p → (m ≠ p ∨ ∀ x ∈ avail, x = p)) ∧
        noRepeatFrom avail (some m) rest

/-- The actor/salvage table (src/main.py lines 183-207). -/
structure ContractParams where
  actors : List String
  salvage : List String

/-- Employer and opponent selection (src/main.py lines 218-221):
`employer = random.choice(actors)`, then
`opponent = random.choice([a for a in actors if a != employer])`. -/
def pickOpponents (actors : List String) (r1 r2 : ℕ) : Option (String × String) :=
  match randomChoice actors r1 with
  | none => none
  | some employer =>
      match randomChoice (actors.filter (fun a => decide (a ≠ employer))) r2 with
      | none => none
      | some opponent => some (employer, opponent)

/-- The random draws consumed by one call of `generate_random_campaign`,
in source order. -/
structure Tape where
  campaignIdx : ℕ
  intensityIdx : ℕ
  durationIdx : ℕ
  employerIdx : ℕ
  opponentIdx : ℕ
  salvageIdx : ℕ
  scaleMult : ℚ
  varianceFactor : ℚ
  splitIdx : ℕ
  countTape : ℕ → ℕ
  pickTape : ℕ → ℕ

/-- Financial adjustment of `generate_random_campaign` (src/main.py lines
232-241): `base_total_pay = duration * base_monthly_payout`,
`pv_adjusted_pay = (pv/120) * base_total_pay`, a variance factor, then
`int(5 * round(final_raw_pay / 5))`. -/
def digestible_total_pay (pv_value duration : ℤ) (base_monthly_payout variance_factor : ℚ) : ℤ :=
  let base_total_pay : ℚ := (duration : ℚ) * base_monthly_payout
  let pv_adjusted_pay : ℚ := ((pv_value : ℚ) / 120) * base_total_pay
  let final_raw_pay : ℚ := pv_adjusted_pay * variance_factor
  5 * roundHalfEven (final_raw_pay / 5)

/-- One mission-schedule output line (src/main.py lines 265-270). -/
def missionLine (item : ScheduleEntry) : String :=
  "Month " ++ toString item.month ++ ": " ++ toString item.count ++ " " ++
    (if item.count = 1 then "mission" else "missions") ++
    (if item.count > 0 then " (" ++ String.intercalate ", " item.types ++ ")" else "")

/-- `generate_random_campaign` (src/main.py lines 210-272), producing the
`output` list of lines built at lines 252-270. -/
def generateCampaignLines (campaign_data : List (String × CampaignDetails))
    (intensity_data : List (String × IntensityStats))
    (contract_params : ContractParams) (t : Tape) : Option (List String) :=
  match randomChoice (campaign_data.map Prod.fst) t.campaignIdx with
  | none => none
  | some campaign_type =>
  match tblGet campaign_type campaign_data with
  | none => none
  | some details =>
  match randomChoice (details.intensity.getD ["Standard"]) t.intensityIdx with
  | none => none
  | some intensity_name =>
  match randomChoice (details.duration.getD [1]) t.durationIdx with
  | none => none
  | some duration =>
  match pickOpponents contract_params.actors t.employerIdx t.opponentIdx with
  | none => none
  | some eo =>
  match randomChoice contract_params.salvage t.salvageIdx with
  | none => none
  | some salvage =>
      let stats := tblGet (pyStrip intensity_name) intensity_data
      let intensity_description :=
        (stats.map IntensityStats.description).getD "No description available"
      let base_monthly_payout := (stats.map IntensityStats.payout).getD 0
      let pv_value := calculate_scale_pv intensity_name intensity_data t.scaleMult
      let total := digestible_total_pay pv_value duration base_monthly_payout t.varianceFactor
      let pay := calculate_pay_split total duration t.splitIdx
      match generate_mission_schedule duration intensity_name campaign_type campaign_data
          t.countTape t.pickTape with
      | none => none
      | some mission_schedule =>
          let duration_text :=
            if duration = 1 then toString duration ++ " month"
            else toString duration ++ " months"
          some (["Employer: " ++ eo.1,
                 "Opponent: " ++ eo.2,
                 "Campaign: " ++ campaign_type,
                 "Intensity: " ++ intensity_name ++ " (" ++ intensity_description ++ ")",
                 "Duration: " ++ duration_text,
                 "Salvage: " ++ salvage,
                 "Pay (retainer): " ++ toString pay.1 ++ " per month",
                 "Pay (bonus): " ++ toString pay.2 ++ " one-time",
                 "Scale: Lance (minimum of " ++ toString pv_value ++ " PV)",
                 "\nMission Schedule:"] ++ mission_schedule.map missionLine)

/-- `generate_random_campaign` returning the final `"\n".join(output)`. -/
def generate_random_campaign (campaign_data : List (String × CampaignDetails))
    (intensity_data : List (String × IntensityStats))
    (contract_params : ContractParams) (t : Tape) : Option String :=
  (generateCampaignLines campaign_data intensity_data contract_params t).map
    (String.intercalate "\n")

/-- Modelled from the spec: the opposing-force PV derivation of spec
section 4.2 (friendly PV times an opfor multiplier, times 1.1 when the
duration is a single month, rounded to the nearest multiple of 5).  No
code in src/ computes this; the definition follows the spec's words and
is used to show the output contains no such value. -/
def opforPV_spec (pv : ℤ) (mult : ℚ) (duration : ℤ) : ℤ :=
  let raw_opfor : ℚ := (pv : ℚ) * mult
  let adjusted : ℚ := if duration = 1 then raw_opfor * 1.1 else raw_opfor
  5 * roundHalfEven (adjusted / 5)

/-- Does `pat` occur at the head of `l`? -/
def listStartsWith {α : Type*} [DecidableEq α] : List α → List α → Bool
  | [], _ => true
  | _ :: _, [] => false
  | a :: as, b :: bs => decide (a = b) && listStartsWith as bs

/-- Does `pat` occur anywhere inside `l`? -/
def listHasSub {α : Type*} [DecidableEq α] (pat : List α) : List α → Bool
  | [] => listStartsWith pat []
  | b :: bs => listStartsWith pat (b :: bs) || listHasSub pat bs

/-- Substring test on strings. -/
def strContainsSub (s pat : String) : Bool := listHasSub pat.data s.data

/-- The three reference tables passed to `generate_random_campaign`,
threaded as explicit state to express that the generator never replaces
them. -/
abbrev GenState :=
  List (String × CampaignDetails) × List (String × IntensityStats) × ContractParams

/-- Read access to the campaign table: returns the state unchanged. -/
def readCampaignData (s : GenState) : GenState × List (String × CampaignDetails) :=
  (s, s.1)

/-- Read access to the intensity table: returns the state unchanged. -/
def readIntensityData (s : GenState) : GenState × List (String × IntensityStats) :=
  (s, s.2.1)

/-- Read access to the actor/salvage table: returns the state unchanged. -/
def readContractParams (s : GenState) : GenState × ContractParams :=
  (s, s.2.2)

/-- State-passing form of `calculate_scale_pv`. -/
def calculate_scale_pv_st (intensity_name : String) (s : GenState) (mult : ℚ) :
    GenState × ℤ :=
  let (s1, idata) := readIntensityData s
  (s1, calculate_scale_pv intensity_name idata mult)

/-- State-passing form of `generate_mission_schedule`. -/
def generate_mission_schedule_st (duration : ℤ) (intensity_name campaign_type : String)
    (s : GenState) (ctape ptape : ℕ → ℕ) : GenState × Option (List ScheduleEntry) :=
  let (s1, cd) := readCampaignData s
  (s1, generate_mission_schedule duration intensity_name campaign_type cd ctape ptape)

/-- State-passing form of `generate_random_campaign`: every table access
goes through the read helpers and the final state is handed back. -/
def generate_random_campaign_st (s : GenState) (t : Tape) : GenState × Option String :=
  let (s1, cd) := readCampaignData s
  let (s2, idata) := readIntensityData s1
  let (s3, cp) := readContractParams s2
  (s3, generate_random_campaign cd idata cp t)

/-- Concrete campaign table used for witnesses and counterexamples. -/
def cdX : List (String × CampaignDetails) :=
  [("Test", ⟨some ["Raid", "Patrol"], some ["Low"], some [3], some [2]⟩)]

/-- Concrete intensity table used for witnesses and counterexamples. -/
def idataX : List (String × IntensityStats) :=
  [("Low", ⟨"calm front", 0, 100, 1, 1⟩)]

/-- Concrete actor/salvage table used for witnesses and counterexamples. -/
def cpX : ContractParams := ⟨["Alpha", "Beta"], ["Half salvage"]⟩

/-- Concrete random tape used for witnesses and counterexamples. -/
def tape0 : Tape := ⟨0, 0, 0, 0, 0, 0, 1, 1, 0, fun _ => 0, fun _ => 0⟩

/-- Intensity table with a negative scale range (allowed by the data
model, which only requires `scale_min ≤ scale_max`). -/
def idataNeg : List (String × IntensityStats) :=
  [("Bad", ⟨"negative scale", 0, 0, -1, -1⟩)]

/-- Campaign table whose archetype has a present-but-empty intensity
list. -/
def cd9 : List (String × CampaignDetails) :=
  [("Empty", ⟨none, some [], some [1], none⟩)]

section RandomChoiceLemmas

variable {α : Type*}

theorem randomChoice_mem {l : List α} {r : ℕ} {x : α}
    (h : randomChoice l r = some x) : x ∈ l := by
  unfold randomChoice at h
  rw [List.getElem?_eq_some] at h
  obtain ⟨hlt, rfl⟩ := h
  exact List.getElem_mem hlt

theorem randomChoice_eq_none {l : List α} {r : ℕ} :
    randomChoice l r = none ↔ l = [] := by
  unfold randomChoice
  rw [List.getElem?_eq_none_iff]
  constructor
  · intro h
    cases l with
    | nil => rfl
    | cons a as =>
        exact absurd (Nat.mod_lt r (by simp)) (Nat.not_lt.mpr h)
  · intro h; subst h; simp

theorem randomChoice_exists_of_ne_nil {l : List α} (h : l ≠ []) (r : ℕ) :
    ∃ x, randomChoice l r = some x ∧ x ∈ l := by
  cases hc : randomChoice l r with
  | none => exact absurd (randomChoice_eq_none.mp hc) h
  | some x => exact ⟨x, rfl, randomChoice_mem hc⟩

end RandomChoiceLemmas

theorem possibleSplits_mem {total_pay duration : ℤ} {p : ℤ × ℤ}
    (hp : p ∈ possibleSplits total_pay duration) :
    p.1 * duration + p.2 = total_pay ∧ p.1 % 5 = 0 ∧ p.2 % 5 = 0 ∧
    total_pay ≤ 4 * (p.1 * duration) ∧ total_pay ≤ 4 * p.2 := by
  simp only [possibleSplits, List.mem_filterMap] at hp
  obtain ⟨m, hm, hif⟩ := hp
  split at hif
  · rename_i hcond
    obtain ⟨h1, h2, h3⟩ := hcond
    cases hif
    simp only [pyRange5, List.mem_map, List.mem_range] at hm
    obtain ⟨i, _, rfl⟩ := hm
    refine ⟨by ring, Int.mul_emod_right 5 i, h3, h1, h2⟩
  · cases hif

/-- The rational inequality `0.25 * t ≤ x` (the form written in the
source) is the integer inequality `t ≤ 4 * x`. -/
theorem quarter_le_iff (t x : ℤ) : 0.25 * (t : ℚ) ≤ (x : ℚ) ↔ t ≤ 4 * x := by
  constructor
  · intro h
    have h4 : (t : ℚ) ≤ 4 * (x : ℚ) := by nlinarith [h]
    exact_mod_cast h4
  · intro h
    have h4 : (t : ℚ) ≤ 4 * (x : ℚ) := by exact_mod_cast h
    nlinarith [h4]

/-- C1: every pair returned by `calculate_pay_split` when the enumeration
yields at least one candidate, whichever candidate the random choice picks,
satisfies `retainer*duration + bonus = total_pay`, both parts multiples of
5, and both parts at least 25% of the total. -/
theorem C1_pay_split_candidates_sound (total_pay duration : ℤ) (r : ℕ)
    (hd : 1 ≤ duration) (hne : possibleSplits total_pay duration ≠ []) :
    (calculate_pay_split total_pay duration r).1 * duration
        + (calculate_pay_split total_pay duration r).2 = total_pay ∧
    (calculate_pay_split total_pay duration r).1 % 5 = 0 ∧
    (calculate_pay_split total_pay duration r).2 % 5 = 0 ∧
    0.25 * (total_pay : ℚ) ≤
      (((calculate_pay_split total_pay duration r).1 * duration : ℤ) : ℚ) ∧
    0.25 * (total_pay : ℚ) ≤
      (((calculate_pay_split total_pay duration r).2 : ℤ) : ℚ) := by
  obtain ⟨p, hp, hmem⟩ := randomChoice_exists_of_ne_nil hne r
  have hps := possibleSplits_mem hmem
  have hres : calculate_pay_split total_pay duration r = p := by
    unfold calculate_pay_split
    rw [hp]
  rw [hres]
  exact ⟨hps.1, hps.2.1, hps.2.2.1,
    (quarter_le_iff _ _).mpr hps.2.2.2.1, (quarter_le_iff _ _).mpr hps.2.2.2.2⟩

/-- C1 witness: a concrete instance with a non-empty candidate list. -/
theorem C1_witness :
    (1 : ℤ) ≤ 1 ∧ possibleSplits 40 1 ≠ [] ∧
    ((calculate_pay_split 40 1 0).1 * 1 + (calculate_pay_split 40 1 0).2 = 40 ∧
     (calculate_pay_split 40 1 0).1 % 5 = 0 ∧
     (calculate_pay_split 40 1 0).2 % 5 = 0 ∧
     0.25 * ((40 : ℤ) : ℚ) ≤ (((calculate_pay_split 40 1 0).1 * 1 : ℤ) : ℚ) ∧
     0.25 * ((40 : ℤ) : ℚ) ≤ (((calculate_pay_split 40 1 0).2 : ℤ) : ℚ)) :=
  ⟨by decide, by decide,
    C1_pay_split_candidates_sound 40 1 0 (by decide) (by decide)⟩

/-- C5: when no candidate satisfies the constraints, `calculate_pay_split`
deterministically returns the fallback
`m = 5 * round((total_pay // 2 // duration) / 5)` and
`bonus = total_pay - m * duration`, for every random draw. -/
theorem C5_pay_split_fallback (total_pay duration : ℤ) (r : ℕ)
    (hd : 1 ≤ duration) (hempty : possibleSplits total_pay duration = []) :
    calculate_pay_split total_pay duration r =
      (5 * pyRound5 ((total_pay.fdiv 2).fdiv duration),
       total_pay - 5 * pyRound5 ((total_pay.fdiv 2).fdiv duration) * duration) := by
  unfold calculate_pay_split
  rw [show randomChoice (possibleSplits total_pay duration) r = none from
    randomChoice_eq_none.mpr hempty]

/-- C5 witness: `(7, 1)` admits no candidate split and the fallback yields
`(5, 2)`. -/
theorem C5_witness :
    (1 : ℤ) ≤ 1 ∧ possibleSplits 7 1 = [] ∧
    calculate_pay_split 7 1 0 =
      (5 * pyRound5 (((7 : ℤ).fdiv 2).fdiv 1),
       7 - 5 * pyRound5 (((7 : ℤ).fdiv 2).fdiv 1) * 1) :=
  ⟨by decide, by decide, C5_pay_split_fallback 7 1 0 (by decide) (by decide)⟩

theorem roundHalfEven_intCast (n : ℤ) : roundHalfEven (n : ℚ) = n := by
  unfold roundHalfEven
  rw [Int.floor_intCast]
  norm_num

theorem roundHalfEven_le (q : ℚ) : (roundHalfEven q : ℚ) ≤ q + 1/2 := by
  unfold roundHalfEven
  have h1 := Int.floor_le q
  have h2 := Int.lt_floor_add_one q
  split_ifs <;> push_cast <;> linarith

theorem le_roundHalfEven (q : ℚ) : q - 1/2 ≤ (roundHalfEven q : ℚ) := by
  unfold roundHalfEven
  have h1 := Int.floor_le q
  have h2 := Int.lt_floor_add_one q
  split_ifs <;> push_cast <;> linarith

theorem roundHalfEven_nonneg {q : ℚ} (h : 0 ≤ q) : 0 ≤ roundHalfEven q := by
  have h1 := le_roundHalfEven q
  have h2 : (-1 : ℚ) < (roundHalfEven q : ℚ) := by linarith
  have h3 : (-1 : ℤ) < roundHalfEven q := by exact_mod_cast h2
  omega

/-- C6 counterexample: the claim asserts a non-negative result for every
table with `scale_min ≤ scale_max`, but a table whose scale range is
negative makes `calculate_scale_pv` return `-120 < 0`. -/
theorem C6_counterexample :
    scaleMinOf "Bad" idataNeg ≤ scaleMaxOf "Bad" idataNeg ∧
    scaleMinOf "Bad" idataNeg ≤ -1 ∧ (-1 : ℚ) ≤ scaleMaxOf "Bad" idataNeg ∧
    calculate_scale_pv "Bad" idataNeg (-1) = -120 ∧
    calculate_scale_pv "Bad" idataNeg (-1) < 0 := by
  have hmin : scaleMinOf "Bad" idataNeg = -1 := rfl
  have hmax : scaleMaxOf "Bad" idataNeg = -1 := rfl
  have hpv : calculate_scale_pv "Bad" idataNeg (-1) = -120 := by
    simp only [calculate_scale_pv]
    rw [show (120 * (-1 : ℚ) / 5) = ((-24 : ℤ) : ℚ) by norm_num, roundHalfEven_intCast]
    norm_num
  exact ⟨by norm_num [hmin, hmax], by norm_num [hmin], by norm_num [hmax],
    hpv, by rw [hpv]; norm_num⟩

/-- C6 (amended): for a table whose effective scale range additionally
satisfies `0 ≤ scale_min`, every drawn multiplier in
`[scale_min, scale_max]` makes `calculate_scale_pv` return a non-negative
multiple of 5 lying within one rounding step (one multiple of 5) of
`[5*round(120*scale_min/5), 5*round(120*scale_max/5)]`. -/
theorem C6_amended_scale_pv_bounds (intensity_name : String)
    (intensity_data : List (String × IntensityStats)) (mult : ℚ)
    (hrange : scaleMinOf intensity_name intensity_data ≤
      scaleMaxOf intensity_name intensity_data)
    (h0 : 0 ≤ scaleMinOf intensity_name intensity_data)
    (hlo : scaleMinOf intensity_name intensity_data ≤ mult)
    (hhi : mult ≤ scaleMaxOf intensity_name intensity_data) :
    0 ≤ calculate_scale_pv intensity_name intensity_data mult ∧
    (5 : ℤ) ∣ calculate_scale_pv intensity_name intensity_data mult ∧
    5 * roundHalfEven (120 * scaleMinOf intensity_name intensity_data / 5) - 5 ≤
      calculate_scale_pv intensity_name intensity_data mult ∧
    calculate_scale_pv intensity_name intensity_data mult ≤
      5 * roundHalfEven (120 * scaleMaxOf intensity_name intensity_data / 5) + 5 := by
  set a := scaleMinOf intensity_name intensity_data with ha
  set b := scaleMaxOf intensity_name intensity_data with hb
  simp only [calculate_scale_pv]
  have hm0 : (0 : ℚ) ≤ mult := le_trans h0 hlo
  have hq0 : (0 : ℚ) ≤ 120 * mult / 5 := by linarith
  refine ⟨?_, Dvd.intro _ rfl, ?_, ?_⟩
  · have := roundHalfEven_nonneg hq0
    omega
  · have hA := roundHalfEven_le (120 * a / 5)
    have hB := le_roundHalfEven (120 * mult / 5)
    have hmono : 120 * a / 5 ≤ 120 * mult / 5 := by linarith
    have hq : (roundHalfEven (120 * a / 5) : ℚ) - 1 ≤
        (roundHalfEven (120 * mult / 5) : ℚ) := by linarith
    have hz : roundHalfEven (120 * a / 5) - 1 ≤ roundHalfEven (120 * mult / 5) := by
      exact_mod_cast hq
    omega
  · have hA := le_roundHalfEven (120 * b / 5)
    have hB := roundHalfEven_le (120 * mult / 5)
    have hmono : 120 * mult / 5 ≤ 120 * b / 5 := by linarith
    have hq : (roundHalfEven (120 * mult / 5) : ℚ) ≤
        (roundHalfEven (120 * b / 5) : ℚ) + 1 := by linarith
    have hz : roundHalfEven (120 * mult / 5) ≤ roundHalfEven (120 * b / 5) + 1 := by
      exact_mod_cast hq
    omega

/-- C6 witness: the amended theorem applied at the concrete table
`idataX` with the multiplier 1. -/
theorem C6_witness :
    scaleMinOf "Low" idataX ≤ scaleMaxOf "Low" idataX ∧
    (0 : ℚ) ≤ scaleMinOf "Low" idataX ∧
    (0 ≤ calculate_scale_pv "Low" idataX 1 ∧
     (5 : ℤ) ∣ calculate_scale_pv "Low" idataX 1 ∧
     5 * roundHalfEven (120 * scaleMinOf "Low" idataX / 5) - 5 ≤
       calculate_scale_pv "Low" idataX 1 ∧
     calculate_scale_pv "Low" idataX 1 ≤
       5 * roundHalfEven (120 * scaleMaxOf "Low" idataX / 5) + 5) := by
  have h1 : scaleMinOf "Low" idataX = 1 := rfl
  have h2 : scaleMaxOf "Low" idataX = 1 := rfl
  exact ⟨by norm_num [h1, h2], by norm_num [h1],
    C6_amended_scale_pv_bounds "Low" idataX 1 (by norm_num [h1, h2])
      (by norm_num [h1]) (by norm_num [h1]) (by norm_num [h2])⟩

theorem weightedPick_mem : ∀ (xs ws : List ℕ) (r : ℕ),
    xs.length = ws.length → r < ws.sum → weightedPick xs ws r ∈ xs := by
  intro xs
  induction xs with
  | nil =>
      intro ws r hlen hsum
      cases ws with
      | nil => simp at hsum
      | cons w ws => simp at hlen
  | cons x xs ih =>
      intro ws r hlen hsum
      cases ws with
      | nil => simp at hlen
      | cons w ws =>
          simp only [weightedPick]
          split_ifs with h
          · exact List.mem_cons_self x xs
          · refine List.mem_cons_of_mem _ (ih ws (r - w) ?_ ?_)
            · simpa using hlen
            · simp only [List.sum_cons] at hsum
              omega

theorem ruleFor_cases (intensity_name : String) :
    ruleFor intensity_name = ⟨[0, 1], [75, 25]⟩ ∨
    ruleFor intensity_name = ⟨[0, 1], [50, 50]⟩ ∨
    ruleFor intensity_name = ⟨[0, 1, 2], [20, 60, 20]⟩ ∨
    ruleFor intensity_name = ⟨[1, 2, 3], [20, 60, 20]⟩ ∨
    ruleFor intensity_name = ⟨[2, 3, 4], [20, 60, 20]⟩ := by
  simp only [ruleFor, intensity_rules, tblGet]
  split_ifs <;> simp

theorem mem_nat_list_le_four {v : ℕ} {l : List ℕ} (hm : v ∈ l)
    (hl : ∀ x ∈ l, x ≤ 4) : v ≤ 4 := hl v hm

theorem get_count_of_rule (intensity_name : String) (r : ℕ) (row : CountRule)
    (hrow : ruleFor intensity_name = row)
    (hlen : row.counts.length = row.weights.length) (hpos : 0 < row.weights.sum) :
    get_monthly_mission_count intensity_name r ∈ row.counts := by
  simp only [get_monthly_mission_count, hrow]
  exact weightedPick_mem _ _ _ hlen (Nat.mod_lt _ hpos)

/-- C7: every value returned by `get_monthly_mission_count` is one of the
counts listed in the fixed table row for the stripped intensity name, an
unknown name uses the Medium row, and the result never exceeds 4. -/
theorem C7_mission_count_in_table (intensity_name : String) (r : ℕ) :
    get_monthly_mission_count intensity_name r ∈ (ruleFor intensity_name).counts ∧
    (pyStrip intensity_name = "Very low" →
      get_monthly_mission_count intensity_name r ∈ [0, 1]) ∧
    (pyStrip intensity_name = "Low" →
      get_monthly_mission_count intensity_name r ∈ [0, 1]) ∧
    (pyStrip intensity_name = "Medium" →
      get_monthly_mission_count intensity_name r ∈ [0, 1, 2]) ∧
    (pyStrip intensity_name = "High" →
      get_monthly_mission_count intensity_name r ∈ [1, 2, 3]) ∧
    (pyStrip intensity_name = "Very high" →
      get_monthly_mission_count intensity_name r ∈ [2, 3, 4]) ∧
    (tblGet (pyStrip intensity_name) intensity_rules = none →
      get_monthly_mission_count intensity_name r ∈ [0, 1, 2]) ∧
    get_monthly_mission_count intensity_name r ≤ 4 := by
  refine ⟨?_, ?_, ?_, ?_, ?_, ?_, ?_, ?_⟩
  · rcases ruleFor_cases intensity_name with h | h | h | h | h <;>
      exact h ▸ get_count_of_rule intensity_name r _ h rfl (by decide)
  · intro h
    exact get_count_of_rule intensity_name r ⟨[0, 1], [75, 25]⟩
      (by simp [ruleFor, intensity_rules, tblGet, h]) rfl (by decide)
  · intro h
    exact get_count_of_rule intensity_name r ⟨[0, 1], [50, 50]⟩
      (by simp [ruleFor, intensity_rules, tblGet, h]) rfl (by decide)
  · intro h
    exact get_count_of_rule intensity_name r ⟨[0, 1, 2], [20, 60, 20]⟩
      (by simp [ruleFor, intensity_rules, tblGet, h]) rfl (by decide)
  · intro h
    exact get_count_of_rule intensity_name r ⟨[1, 2, 3], [20, 60, 20]⟩
      (by simp [ruleFor, intensity_rules, tblGet, h]) rfl (by decide)
  · intro h
    exact get_count_of_rule intensity_name r ⟨[2, 3, 4], [20, 60, 20]⟩
      (by simp [ruleFor, intensity_rules, tblGet, h]) rfl (by decide)
  · intro h
    exact get_count_of_rule intensity_name r ⟨[0, 1, 2], [20, 60, 20]⟩
      (by simp [ruleFor, h]) rfl (by decide)
  · rcases ruleFor_cases intensity_name with h | h | h | h | h <;>
      exact mem_nat_list_le_four (get_count_of_rule intensity_name r _ h rfl (by decide))
        (by decide)

/-- C7 witness: the theorem applied at the name "High" with draw 3. -/
theorem C7_witness : get_monthly_mission_count "High" 3 ∈ [1, 2, 3] :=
  (C7_mission_count_in_table "High" 3).2.2.2.2.1 rfl

/-- C4: opponent selection fails (for every draw) exactly when the actor
pool has fewer than two distinct names, and with at least two distinct
names it always succeeds with an opponent different from the employer. -/
theorem C4_opponent_selection (actors : List String) :
    ((∀ a ∈ actors, ∀ b ∈ actors, a = b) →
      ∀ r1 r2 : ℕ, pickOpponents actors r1 r2 = none) ∧
    ((∃ a ∈ actors, ∃ b ∈ actors, a ≠ b) →
      ∀ r1 r2 : ℕ, ∃ employer opponent,
        pickOpponents actors r1 r2 = some (employer, opponent) ∧
          opponent ≠ employer) := by
  constructor
  · intro hall r1 r2
    cases hc : randomChoice actors r1 with
    | none => simp only [pickOpponents, hc]
    | some employer =>
        have hemp : employer ∈ actors := randomChoice_mem hc
        have hfilter : actors.filter (fun a => decide (a ≠ employer)) = [] := by
          rw [List.filter_eq_nil_iff]
          intro a ha
          simp [hall a ha employer hemp]
        simp only [pickOpponents, hc,
          show randomChoice (actors.filter fun a => decide (a ≠ employer)) r2 = none
            from randomChoice_eq_none.mpr hfilter]
  · rintro ⟨a, ha, b, hb, hab⟩ r1 r2
    have hne : actors ≠ [] := by
      intro h
      subst h
      simp at ha
    obtain ⟨employer, hemp, hmem⟩ := randomChoice_exists_of_ne_nil hne r1
    have hfne : actors.filter (fun x => decide (x ≠ employer)) ≠ [] := by
      intro hnil
      rw [List.filter_eq_nil_iff] at hnil
      have hae : a = employer := by simpa using hnil a ha
      have hbe : b = employer := by simpa using hnil b hb
      exact hab (hae.trans hbe.symm)
    obtain ⟨opponent, hop, hopmem⟩ := randomChoice_exists_of_ne_nil hfne r2
    refine ⟨employer, opponent, ?_, ?_⟩
    · simp only [pickOpponents, hemp, hop]
    · simpa using (List.mem_filter.mp hopmem).2

/-- C4 witness: a one-name pool fails; the pool `["Alpha", "Beta"]` always
yields an opponent different from the employer. -/
theorem C4_witness :
    pickOpponents ["Alpha", "Alpha"] 0 0 = none ∧
    (∃ employer opponent,
      pickOpponents ["Alpha", "Beta"] 0 1 = some (employer, opponent) ∧
        opponent ≠ employer) :=
  ⟨(C4_opponent_selection ["Alpha", "Alpha"]).1 (by decide) 0 0,
   (C4_opponent_selection ["Alpha", "Beta"]).2
     ⟨"Alpha", by decide, "Beta", by decide, by decide⟩ 0 1⟩

theorem lastTrack_cons (last : Option String) (x : String) (xs : List String) :
    lastTrack last (x :: xs) = lastTrack (some x) xs := rfl

theorem lastTrack_append (last : Option String) (xs ys : List String) :
    lastTrack last (xs ++ ys) = lastTrack (lastTrack last xs) ys := by
  simp [lastTrack, List.foldl_append]

theorem noRepeatFrom_append (avail : List String) :
    ∀ (xs ys : List String) (last : Option String),
      noRepeatFrom avail last (xs ++ ys) ↔
        noRepeatFrom avail last xs ∧ noRepeatFrom avail (lastTrack last xs) ys := by
  intro xs
  induction xs with
  | nil =>
      intro ys last
      simp only [List.nil_append, noRepeatFrom, lastTrack, List.foldl_nil, true_and]
  | cons x xs ih =>
      intro ys last
      constructor
      · rintro ⟨h1, h2⟩
        have h2' := (ih ys (some x)).mp h2
        exact ⟨⟨h1, h2'.1⟩, h2'.2⟩
      · rintro ⟨⟨h1, h2⟩, h3⟩
        exact ⟨h1, (ih ys (some x)).mpr ⟨h2, h3⟩⟩

theorem pickOne_spec {avail : List String} {last : Option String} {r : ℕ}
    {cur : String} (h : pickOne avail last r = some cur) :
    cur ∈ avail ∧ ∀ p, last = some p → (cur ≠ p ∨ ∀ x ∈ avail, x = p) := by
  simp only [pickOne] at h
  by_cases hemp : (avail.filter fun m => decide (some m ≠ last)).isEmpty = true
  · rw [if_pos hemp] at h
    refine ⟨randomChoice_mem h, ?_⟩
    intro p hp
    right
    intro x hx
    have hfil : avail.filter (fun m => decide (some m ≠ last)) = [] :=
      List.isEmpty_iff.mp hemp
    rw [List.filter_eq_nil_iff] at hfil
    have hx2 := hfil x hx
    subst hp
    simpa using hx2
  · rw [if_neg hemp] at h
    have hcur := List.mem_filter.mp (randomChoice_mem h)
    refine ⟨hcur.1, ?_⟩
    intro p hp
    left
    subst hp
    simpa using hcur.2

theorem pickBatch_spec (avail : List String) :
    ∀ (c : ℕ) (last : Option String) (tape : ℕ → ℕ) (i : ℕ)
      (ms : List String) (last2 : Option String) (i2 : ℕ),
      pickBatch avail last c tape i = some (ms, last2, i2) →
      ms.length = c ∧ noRepeatFrom avail last ms ∧ last2 = lastTrack last ms := by
  intro c
  induction c with
  | zero =>
      intro last tape i ms last2 i2 h
      simp only [pickBatch, Option.some.injEq, Prod.mk.injEq] at h
      obtain ⟨rfl, rfl, rfl⟩ := h
      exact ⟨rfl, trivial, rfl⟩
  | succ c ih =>
      intro last tape i ms last2 i2 h
      simp only [pickBatch] at h
      rcases hrc : pickOne avail last (tape i) with _ | current
      · rw [hrc] at h
        cases h
      · rw [hrc] at h
        dsimp only [] at h
        rcases hpb : pickBatch avail (some current) c tape (i + 1) with _ | ⟨rest, last3, i3⟩
        · rw [hpb] at h
          cases h
        · rw [hpb] at h
          cases h
          obtain ⟨hlen, hnr, hlt⟩ := ih _ _ _ _ _ _ hpb
          exact ⟨by simp [hlen], ⟨(pickOne_spec hrc).2, hnr⟩,
            by rw [lastTrack_cons]; exact hlt⟩

theorem genMonths_spec (avail : List String) (intensity_name : String)
    (ctape ptape : ℕ → ℕ) :
    ∀ (n k : ℕ) (last : Option String) (i : ℕ)
      (s : List ScheduleEntry) (last2 : Option String) (i2 : ℕ),
      genMonths avail intensity_name ctape ptape n k last i = some (s, last2, i2) →
      s.length = n ∧
      s.map ScheduleEntry.month = (List.range n).map (fun (j : ℕ) => (k : ℤ) + (j : ℤ) + 1) ∧
      (∀ e ∈ s, e.types.length = e.count) ∧
      noRepeatFrom avail last ((s.map ScheduleEntry.types).flatten) ∧
      last2 = lastTrack last ((s.map ScheduleEntry.types).flatten) := by
  intro n
  induction n with
  | zero =>
      intro k last i s last2 i2 h
      simp only [genMonths, Option.some.injEq, Prod.mk.injEq] at h
      obtain ⟨rfl, rfl, rfl⟩ := h
      exact ⟨rfl, by simp, by simp, trivial, rfl⟩
  | succ n ih =>
      intro k last i s last2 i2 h
      simp only [genMonths] at h
      rcases hpb : pickBatch avail last (get_monthly_mission_count intensity_name (ctape k))
          ptape i with _ | ⟨month_missions, last3, i3⟩
      · rw [hpb] at h
        cases h
      · rw [hpb] at h
        dsimp only [] at h
        rcases hgm : genMonths avail intensity_name ctape ptape n (k + 1) last3 i3
            with _ | ⟨rest, last4, i4⟩
        · rw [hgm] at h
          cases h
        · rw [hgm] at h
          cases h
          obtain ⟨hbl, hbn, hbt⟩ := pickBatch_spec avail _ _ _ _ _ _ _ hpb
          obtain ⟨hl, hm, ht, hnr, hlt⟩ := ih _ _ _ _ _ _ hgm
          refine ⟨by simp [hl], ?_, ?_, ?_, ?_⟩
          · rw [List.map_cons, hm, List.range_succ_eq_map, List.map_cons, List.map_map]
            refine congrArg₂ List.cons ?_ (List.map_congr_left ?_)
            · show ((k : ℤ) + 1) = (k : ℤ) + ((0 : ℕ) : ℤ) + 1
              push_cast
              ring
            · intro j hj
              show ((k + 1 : ℕ) : ℤ) + (j : ℤ) + 1 = (k : ℤ) + ((j + 1 : ℕ) : ℤ) + 1
              push_cast
              ring
          · intro e he
            rcases List.mem_cons.mp he with rfl | hr
            · exact hbl
            · exact ht e hr
          · simp only [List.map_cons, List.flatten_cons]
            rw [noRepeatFrom_append]
            exact ⟨hbn, by rw [← hbt]; exact hnr⟩
          · simp only [List.map_cons, List.flatten_cons]
            rw [lastTrack_append, ← hbt]
            exact hlt

/-- C8: every successfully generated schedule has exactly `duration`
entries, with month numbers `1..duration` in order, non-negative counts,
and a types list whose length equals the count. -/
theorem C8_schedule_wellformed (duration : ℤ) (intensity_name campaign_type : String)
    (campaign_data : List (String × CampaignDetails)) (ctape ptape : ℕ → ℕ)
    (s : List ScheduleEntry) (hd : 1 ≤ duration)
    (h : generate_mission_schedule duration intensity_name campaign_type campaign_data
      ctape ptape = some s) :
    (s.length : ℤ) = duration ∧
    s.map ScheduleEntry.month = (List.range s.length).map (fun (j : ℕ) => (j : ℤ) + 1) ∧
    ∀ e ∈ s, (0 : ℤ) ≤ (e.count : ℤ) ∧ e.types.length = e.count := by
  unfold generate_mission_schedule at h
  obtain ⟨a, hgm, hs⟩ := Option.map_eq_some'.mp h
  obtain ⟨s', last2, i2⟩ := a
  dsimp only at hs
  subst hs
  obtain ⟨hl, hm, ht, _, _⟩ :=
    genMonths_spec (availableMissions campaign_type campaign_data) intensity_name
      ctape ptape duration.toNat 0 none 0 s' last2 i2 hgm
  refine ⟨?_, ?_, fun e he => ⟨by positivity, ht e he⟩⟩
  · rw [hl]
    exact Int.toNat_of_nonneg (by linarith)
  · rw [hm, hl]
    refine List.map_congr_left ?_
    intro j hj
    push_cast
    ring

/-- C8 witness: a concrete three-month schedule. -/
theorem C8_witness :
    (([⟨1, 0, []⟩, ⟨2, 0, []⟩, ⟨3, 0, []⟩] : List ScheduleEntry).length : ℤ) = 3 ∧
    ([⟨1, 0, []⟩, ⟨2, 0, []⟩, ⟨3, 0, []⟩] : List ScheduleEntry).map ScheduleEntry.month =
      (List.range ([⟨1, 0, []⟩, ⟨2, 0, []⟩, ⟨3, 0, []⟩] : List ScheduleEntry).length).map
        (fun (j : ℕ) => (j : ℤ) + 1) ∧
    ∀ e ∈ ([⟨1, 0, []⟩, ⟨2, 0, []⟩, ⟨3, 0, []⟩] : List ScheduleEntry),
      (0 : ℤ) ≤ (e.count : ℤ) ∧ e.types.length = e.count :=
  C8_schedule_wellformed 3 "Low" "Test" cdX (fun _ => 0) (fun _ => 0)
    [⟨1, 0, []⟩, ⟨2, 0, []⟩, ⟨3, 0, []⟩] (by decide) (by decide)

/-- C3: in every successfully generated schedule, the flattened pick
sequence never repeats the previous pick (across month boundaries too),
except when every available mission equals the previous pick, in which
case the exclusion is waived. -/
theorem C3_no_immediate_repeat (duration : ℤ) (intensity_name campaign_type : String)
    (campaign_data : List (String × CampaignDetails)) (ctape ptape : ℕ → ℕ)
    (s : List ScheduleEntry)
    (h : generate_mission_schedule duration intensity_name campaign_type campaign_data
      ctape ptape = some s) :
    noRepeatFrom (availableMissions campaign_type campaign_data) none
      ((s.map ScheduleEntry.types).flatten) := by
  unfold generate_mission_schedule at h
  obtain ⟨⟨s', last2, i2⟩, hgm, rfl⟩ := Option.map_eq_some'.mp h
  exact (genMonths_spec (availableMissions campaign_type campaign_data) intensity_name
    ctape ptape duration.toNat 0 none 0 s' last2 i2 hgm).2.2.2.1

/-- C3 witness: a two-month schedule over the pool `["Raid", "Patrol"]`
whose consecutive picks differ. -/
theorem C3_witness :
    noRepeatFrom (availableMissions "Test" cdX) none
      ((([⟨1, 1, ["Raid"]⟩, ⟨2, 1, ["Patrol"]⟩] : List ScheduleEntry).map
        ScheduleEntry.types).flatten) :=
  C3_no_immediate_repeat 2 "High" "Test" cdX (fun _ => 0) (fun _ => 0)
    [⟨1, 1, ["Raid"]⟩, ⟨2, 1, ["Patrol"]⟩] (by decide)

/-- C9 counterexample: an archetype whose intensity list is present but
empty is not replaced by the default, and generation fails
(`random.choice` on an empty list). -/
theorem C9_counterexample :
    (tblGet "Empty" cd9).map CampaignDetails.intensity = some (some []) ∧
    generateCampaignLines cd9 idataX cpX tape0 = none ∧
    generate_random_campaign cd9 idataX cpX tape0 = none :=
  ⟨by decide, by decide, by decide⟩

/-- C9 (amended): the documented defaults are substituted only when the
corresponding key is absent from the archetype, and those default draws
cannot fail; a present-but-empty list is used as is. -/
theorem C9_amended_defaults (campaign_data : List (String × CampaignDetails))
    (campaign_type : String) (details : CampaignDetails) (r : ℕ) :
    (details.intensity = none →
      randomChoice (details.intensity.getD ["Standard"]) r = some "Standard") ∧
    (details.duration = none →
      randomChoice (details.duration.getD [1]) r = some 1) ∧
    ((tblGet campaign_type campaign_data).bind CampaignDetails.missions = none →
      availableMissions campaign_type campaign_data = ["Standard Combat"]) := by
  refine ⟨?_, ?_, ?_⟩
  · intro h
    rw [h]
    simp [randomChoice, Nat.mod_one]
  · intro h
    rw [h]
    simp [randomChoice, Nat.mod_one]
  · intro h
    unfold availableMissions
    rw [h]
    rfl

/-- C9 witness: the amended theorem applied to an archetype with all keys
absent. -/
theorem C9_witness :
    randomChoice ((⟨none, none, none, none⟩ : CampaignDetails).intensity.getD
      ["Standard"]) 5 = some "Standard" ∧
    randomChoice ((⟨none, none, none, none⟩ : CampaignDetails).duration.getD
      [1]) 5 = some 1 ∧
    availableMissions "X" [] = ["Standard Combat"] :=
  ⟨(C9_amended_defaults [] "X" ⟨none, none, none, none⟩ 5).1 rfl,
   (C9_amended_defaults [] "X" ⟨none, none, none, none⟩ 5).2.1 rfl,
   (C9_amended_defaults [] "X" ⟨none, none, none, none⟩ 5).2.2 rfl⟩

theorem scale_pv_X_eval : calculate_scale_pv "Low" idataX tape0.scaleMult = 120 := by
  show calculate_scale_pv "Low" idataX 1 = 120
  simp only [calculate_scale_pv]
  rw [show (120 * (1 : ℚ) / 5) = ((24 : ℤ) : ℚ) from by norm_num, roundHalfEven_intCast]
  norm_num

theorem digestible_X_eval : digestible_total_pay 120 3 100 tape0.varianceFactor = 300 := by
  show digestible_total_pay 120 3 100 1 = 300
  simp only [digestible_total_pay]
  rw [show ((((120 : ℤ) : ℚ) / 120) * (((3 : ℤ) : ℚ) * 100) * 1 / 5) = ((60 : ℤ) : ℚ)
    from by push_cast; norm_num, roundHalfEven_intCast]
  norm_num

theorem genLinesX_eval :
    generateCampaignLines cdX idataX cpX tape0 = some
      ["Employer: Alpha",
       "Opponent: Beta",
       "Campaign: Test",
       "Intensity: Low (calm front)",
       "Duration: 3 months",
       "Salvage: Half salvage",
       "Pay (retainer): 25 per month",
       "Pay (bonus): 225 one-time",
       "Scale: Lance (minimum of 120 PV)",
       "\nMission Schedule:",
       "Month 1: 0 missions",
       "Month 2: 0 missions",
       "Month 3: 0 missions"] := by
  have e1 : randomChoice (cdX.map Prod.fst) tape0.campaignIdx = some "Test" := by decide
  have e2 : tblGet "Test" cdX =
      some ⟨some ["Raid", "Patrol"], some ["Low"], some [3], some [2]⟩ := by decide
  have e3 : randomChoice ["Low"] tape0.intensityIdx = some "Low" := by decide
  have e4 : randomChoice [(3 : ℤ)] tape0.durationIdx = some (3 : ℤ) := by decide
  have e5 : pickOpponents cpX.actors tape0.employerIdx tape0.opponentIdx =
      some ("Alpha", "Beta") := by decide
  have e6 : randomChoice cpX.salvage tape0.salvageIdx = some "Half salvage" := by decide
  have e8 : tblGet (pyStrip "Low") idataX = some ⟨"calm front", 0, 100, 1, 1⟩ := by decide
  have e10 : calculate_pay_split 300 3 tape0.splitIdx = (25, 225) := by decide
  have e11 : generate_mission_schedule 3 "Low" "Test" cdX tape0.countTape tape0.pickTape =
      some [⟨1, 0, []⟩, ⟨2, 0, []⟩, ⟨3, 0, []⟩] := by decide
  simp only [generateCampaignLines, e1, e2, e3, e4, e5, e6, e8, Option.getD_some,
    Option.map_some', scale_pv_X_eval, digestible_X_eval, e10, e11]
  decide

/-- C2 counterexample: for a concrete campaign whose spec-derived
opposing-force PV would be 240, the generated output block contains no
line mentioning that value at all — the source computes no opposing-force
PV. -/
theorem C2_counterexample :
    opforPV_spec 120 2 3 = 240 ∧
    randomChoice ([2] : List ℚ) 0 = some 2 ∧
    (generateCampaignLines cdX idataX cpX tape0).map
      (fun ls => ls.any (fun l => strContainsSub l (toString (opforPV_spec 120 2 3)))) =
      some false := by
  have hop : opforPV_spec 120 2 3 = 240 := by
    simp only [opforPV_spec]
    rw [if_neg (by decide : ¬((3 : ℤ) = 1))]
    rw [show ((120 : ℤ) : ℚ) * 2 / 5 = ((48 : ℤ) : ℚ) from by push_cast; norm_num,
      roundHalfEven_intCast]
    norm_num
  refine ⟨hop, by decide, ?_⟩
  rw [genLinesX_eval, hop]
  decide

/-- C2 (amended): `generate_random_campaign` computes no opposing-force
PV; in every successfully generated output block the friendly Scale (PV)
line at index 8 is immediately followed by the Mission Schedule header at
index 9, with no opposing-force size line. -/
theorem C2_amended_no_opfor_line (campaign_data : List (String × CampaignDetails))
    (intensity_data : List (String × IntensityStats)) (contract_params : ContractParams)
    (t : Tape) (ls : List String)
    (h : generateCampaignLines campaign_data intensity_data contract_params t = some ls) :
    ls[9]? = some "\nMission Schedule:" ∧
    ∃ pvv : ℤ, ls[8]? = some ("Scale: Lance (minimum of " ++ toString pvv ++ " PV)") := by
  simp only [generateCampaignLines] at h
  rcases h1 : randomChoice (campaign_data.map Prod.fst) t.campaignIdx with _ | campaign_type
  · rw [h1] at h
    cases h
  · rw [h1] at h
    dsimp only [] at h
    rcases h2 : tblGet campaign_type campaign_data with _ | details
    · rw [h2] at h
      cases h
    · rw [h2] at h
      dsimp only [] at h
      rcases h3 : randomChoice (details.intensity.getD ["Standard"]) t.intensityIdx
          with _ | intensity_name
      · rw [h3] at h
        cases h
      · rw [h3] at h
        dsimp only [] at h
        rcases h4 : randomChoice (details.duration.getD [1]) t.durationIdx with _ | duration
        · rw [h4] at h
          cases h
        · rw [h4] at h
          dsimp only [] at h
          rcases h5 : pickOpponents contract_params.actors t.employerIdx t.opponentIdx
              with _ | eo
          · rw [h5] at h
            cases h
          · rw [h5] at h
            dsimp only [] at h
            rcases h6 : randomChoice contract_params.salvage t.salvageIdx with _ | salvage
            · rw [h6] at h
              cases h
            · rw [h6] at h
              dsimp only [] at h
              rcases h7 : generate_mission_schedule duration intensity_name campaign_type
                  campaign_data t.countTape t.pickTape with _ | mission_schedule
              · rw [h7] at h
                cases h
              · rw [h7] at h
                dsimp only [] at h
                cases h
                exact ⟨by simp,
                  calculate_scale_pv intensity_name intensity_data t.scaleMult, by simp⟩

/-- C2 witness for the amended theorem: the concrete campaign of
`genLinesX_eval`. -/
theorem C2_amended_witness :
    ((generateCampaignLines cdX idataX cpX tape0).getD [])[9]? =
      some "\nMission Schedule:" ∧
    ∃ pvv : ℤ, ((generateCampaignLines cdX idataX cpX tape0).getD [])[8]? =
      some ("Scale: Lance (minimum of " ++ toString pvv ++ " PV)") :=
  C2_amended_no_opfor_line cdX idataX cpX tape0 _
    (by rw [genLinesX_eval]; rfl)

/-- C10: the generator and its helpers, in state-passing form, hand back
the three reference tables unchanged and compute the same results as the
purely functional embedding; the source only ever reads the tables. -/
theorem C10_inputs_unchanged (s : GenState) (t : Tape) (duration : ℤ)
    (intensity_name campaign_type : String) (mult : ℚ) (ctape ptape : ℕ → ℕ) :
    (generate_random_campaign_st s t).1 = s ∧
    (generate_random_campaign_st s t).2 = generate_random_campaign s.1 s.2.1 s.2.2 t ∧
    (generate_mission_schedule_st duration intensity_name campaign_type s ctape ptape).1
      = s ∧
    (generate_mission_schedule_st duration intensity_name campaign_type s ctape ptape).2
      = generate_mission_schedule duration intensity_name campaign_type s.1 ctape ptape ∧
    (calculate_scale_pv_st intensity_name s mult).1 = s ∧
    (calculate_scale_pv_st intensity_name s mult).2 =
      calculate_scale_pv intensity_name s.2.1 mult :=
  ⟨rfl, rfl, rfl, rfl, rfl, rfl⟩
